import Mathlib

/-!
Verification of the commitment-embedding and schema-codec core of the
rust-lnpbp sample (src/bp/dbc/scriptpubkey.rs and src/rgb/schema/nodes.rs),
as a shallow embedding in Lean 4.

Bytes are modelled as `List Nat` (each element intended `< 256`; the
encoders only ever produce such values).  Streams are modelled by explicit
state passing: a decoder consumes a prefix of the byte list and returns the
decoded value together with the remaining bytes.  Fallible operations
return `Except SEError`.
-/

/-- Modelled from the spec: the strict-encoding error type of the external
`crate::strict_encoding` module (not under src/).  Only the variants the
sample code can produce are modelled: the forward-compatibility rejection
`UnsupportedDataStructure`, the out-of-range rejection for count/usize
values exceeding 16 bits, and premature end of the byte stream. -/
inductive SEError where
  | UnsupportedDataStructure (msg : String)
  | ExceedMaxItems (n : Nat)
  | Eof
deriving DecidableEq

/-- Modelled from the spec: the external primitive codec writes a `u16` as
two little-endian bytes. -/
def u16_strict_encode (n : Nat) : List Nat :=
  [n % 256, n / 256 % 256]

/-- Modelled from the spec: the external primitive codec reads a `u16` from
two little-endian bytes, failing on a short stream. -/
def u16_strict_decode : List Nat → Except SEError (Nat × List Nat)
  | b0 :: b1 :: rest => Except.ok (b0 + 256 * b1, rest)
  | _ => Except.error SEError.Eof

/-- Modelled from the spec: the external primitive codec serialises a
`usize` as a 16-bit value, rejecting values that do not fit (the source
comment at src/rgb/schema/nodes.rs:19 states that encoding/decoding makes
sure a `usize` key is a `u16`). -/
def usize_strict_encode (n : Nat) : Except SEError (List Nat) :=
  if n ≤ 0xFFFF then Except.ok (u16_strict_encode n)
  else Except.error (SEError.ExceedMaxItems n)

/-- Modelled from the spec: a `usize` is decoded as a 16-bit value. -/
def usize_strict_decode (d : List Nat) : Except SEError (Nat × List Nat) :=
  u16_strict_decode d

/-- Modelled from the spec: the external primitive codec writes a byte
vector as a count prefix (a `usize`, serialised as 16 bits) followed by the
raw bytes. -/
def vecU8_strict_encode (v : List Nat) : Except SEError (List Nat) :=
  match usize_strict_encode v.length with
  | Except.ok lenBytes => Except.ok (lenBytes ++ v)
  | Except.error e => Except.error e

/-- Modelled from the spec: the external primitive codec reads a byte
vector as a 16-bit count prefix followed by that many raw bytes. -/
def vecU8_strict_decode (d : List Nat) : Except SEError (List Nat × List Nat) :=
  match u16_strict_decode d with
  | Except.ok (len, rest) =>
      if len ≤ rest.length then Except.ok (rest.take len, rest.drop len)
      else Except.error SEError.Eof
  | Except.error e => Except.error e

/-- Modelled from the spec: an occurrence constraint is a minimum/maximum
repetition count attached to a schema field or seal type (`Occurences<u16>`
in the external `super` module, not under src/); its bounds are 16-bit
values. -/
structure Occurences where
  min_occurs : Nat
  max_occurs : Nat
deriving DecidableEq

/-- Modelled from the spec: the external codec for `Occurences<u16>` writes
its two 16-bit bounds in order. -/
def Occurences.strict_encode (o : Occurences) : Except SEError (List Nat) :=
  Except.ok (u16_strict_encode o.min_occurs ++ u16_strict_encode o.max_occurs)

/-- Modelled from the spec: the external codec for `Occurences<u16>` reads
its two 16-bit bounds in order. -/
def Occurences.strict_decode (d : List Nat) : Except SEError (Occurences × List Nat) :=
  match u16_strict_decode d with
  | Except.ok (mn, d) =>
      match u16_strict_decode d with
      | Except.ok (mx, d) => Except.ok (⟨mn, mx⟩, d)
      | Except.error e => Except.error e
  | Except.error e => Except.error e

/-- Insertion into a sorted association list, replacing an existing
binding: the model of `BTreeMap::insert` used when decoding a map. -/
def insertSorted {α : Type} : List (Nat × α) → Nat → α → List (Nat × α)
  | [], k, v => [(k, v)]
  | (k', v') :: rest, k, v =>
      if k < k' then (k, v) :: (k', v') :: rest
      else if k = k' then (k, v) :: rest
      else (k', v') :: insertSorted rest k v

/-- Modelled from the spec: body of the external ordered-map codec — each
entry is encoded as its `usize` key (16-bit, checked) followed by its
value, in the map's ascending key order (a `BTreeMap` iterates in
ascending key order; the model keeps the map as a sorted association
list). -/
def mapEncodeEntries {α : Type} (encV : α → Except SEError (List Nat)) :
    List (Nat × α) → Except SEError (List Nat)
  | [] => Except.ok []
  | (k, v) :: rest =>
      match usize_strict_encode k with
      | Except.ok kb =>
          match encV v with
          | Except.ok vb =>
              match mapEncodeEntries encV rest with
              | Except.ok rb => Except.ok (kb ++ vb ++ rb)
              | Except.error e => Except.error e
          | Except.error e => Except.error e
      | Except.error e => Except.error e

/-- Modelled from the spec: the external ordered-map codec writes a `usize`
count prefix (16-bit, checked) and then the entries in ascending key
order. -/
def mapEncode {α : Type} (encV : α → Except SEError (List Nat))
    (m : List (Nat × α)) : Except SEError (List Nat) :=
  match usize_strict_encode m.length with
  | Except.ok cb =>
      match mapEncodeEntries encV m with
      | Except.ok eb => Except.ok (cb ++ eb)
      | Except.error e => Except.error e
  | Except.error e => Except.error e

/-- Modelled from the spec: the external ordered-map codec reads `n`
entries (key then value) and inserts each into the map under
construction. -/
def mapDecodeEntries {α : Type} (decV : List Nat → Except SEError (α × List Nat)) :
    Nat → List (Nat × α) → List Nat → Except SEError (List (Nat × α) × List Nat)
  | 0, acc, d => Except.ok (acc, d)
  | n + 1, acc, d =>
      match usize_strict_decode d with
      | Except.ok (k, d) =>
          match decV d with
          | Except.ok (v, d) => mapDecodeEntries decV n (insertSorted acc k v) d
          | Except.error e => Except.error e
      | Except.error e => Except.error e

/-- Modelled from the spec: the external ordered-map codec reads a 16-bit
count prefix and then that many key/value entries. -/
def mapDecode {α : Type} (decV : List Nat → Except SEError (α × List Nat))
    (d : List Nat) : Except SEError (List (Nat × α) × List Nat) :=
  match u16_strict_decode d with
  | Except.ok (n, d) => mapDecodeEntries decV n [] d
  | Except.error e => Except.error e

/-- `FieldType` of the external `super` module (a `usize` field
identifier); modelled from the spec as a natural number. -/
abbrev FieldType : Type := Nat

/-- src/rgb/schema/nodes.rs:19 — `pub type AssignmentsType = usize`. -/
abbrev AssignmentsType : Type := Nat

/-- src/rgb/schema/nodes.rs:20 — a `BTreeMap<FieldType, Occurences<u16>>`,
modelled as a sorted association list. -/
abbrev MetadataStructure : Type := List (Nat × Occurences)

/-- src/rgb/schema/nodes.rs:21 — a `BTreeMap<AssignmentsType, Occurences<u16>>`,
modelled as a sorted association list. -/
abbrev SealsStructure : Type := List (Nat × Occurences)

/-- Modelled from the spec: an ABI descriptor is an operation-code →
implementation-reference mapping, opaque to this core (`GenesisAbi` /
`TransitionAbi` of the external `super` module); modelled as a sorted
association list over naturals, encoded by the shared ordered-map codec
with the checked `usize` codec for both sides. -/
abbrev Abi : Type := List (Nat × Nat)

/-- `GenesisAbi` of the external `super` module. -/
abbrev GenesisAbi : Type := Abi

/-- `TransitionAbi` of the external `super` module. -/
abbrev TransitionAbi : Type := Abi

/-- src/rgb/schema/nodes.rs:25-29 — `GenesisSchema`. -/
structure GenesisSchema where
  metadata : MetadataStructure
  defines : SealsStructure
  abi : GenesisAbi
deriving DecidableEq

/-- src/rgb/schema/nodes.rs:33-38 — `TransitionSchema`. -/
structure TransitionSchema where
  metadata : MetadataStructure
  closes : SealsStructure
  defines : SealsStructure
  abi : TransitionAbi
deriving DecidableEq

/-- Value decoder used for metadata/seal maps: `Occurences::strict_decode`. -/
def occDec : List Nat → Except SEError (Occurences × List Nat) :=
  Occurences.strict_decode

/-- Value decoder used for ABI maps: the checked `usize` codec. -/
def abiValDec : List Nat → Except SEError (Nat × List Nat) :=
  usize_strict_decode

/-- src/rgb/schema/nodes.rs:47-53 — `GenesisSchema::strict_encode`: encode
metadata, defines, abi, then an empty byte vector kept for future script
extended info. -/
def GenesisSchema.strict_encode (s : GenesisSchema) : Except SEError (List Nat) :=
  match mapEncode Occurences.strict_encode s.metadata with
  | Except.ok mb =>
      match mapEncode Occurences.strict_encode s.defines with
      | Except.ok db =>
          match mapEncode usize_strict_encode s.abi with
          | Except.ok ab =>
              match vecU8_strict_encode [] with
              | Except.ok sb => Except.ok (mb ++ db ++ ab ++ sb)
              | Except.error e => Except.error e
          | Except.error e => Except.error e
      | Except.error e => Except.error e
  | Except.error e => Except.error e

/-- src/rgb/schema/nodes.rs:59-74 — `GenesisSchema::strict_decode`: decode
metadata, defines, abi, then the trailing byte vector; fail with
`UnsupportedDataStructure` when the trailing vector is non-empty. -/
def GenesisSchema.strict_decode (d : List Nat) :
    Except SEError (GenesisSchema × List Nat) :=
  match mapDecode occDec d with
  | Except.ok (metadata, d) =>
      match mapDecode occDec d with
      | Except.ok (defines, d) =>
          match mapDecode abiValDec d with
          | Except.ok (abi, d) =>
              match vecU8_strict_decode d with
              | Except.ok (script, d) =>
                  if script.isEmpty then Except.ok (⟨metadata, defines, abi⟩, d)
                  else Except.error (SEError.UnsupportedDataStructure
                    "Scripting information is not yet supported")
              | Except.error e => Except.error e
          | Except.error e => Except.error e
      | Except.error e => Except.error e
  | Except.error e => Except.error e

/-- src/rgb/schema/nodes.rs:80-87 — `TransitionSchema::strict_encode`:
encode metadata, closes, defines, abi, then an empty byte vector kept for
future script extended info. -/
def TransitionSchema.strict_encode (s : TransitionSchema) : Except SEError (List Nat) :=
  match mapEncode Occurences.strict_encode s.metadata with
  | Except.ok mb =>
      match mapEncode Occurences.strict_encode s.closes with
      | Except.ok cb =>
          match mapEncode Occurences.strict_encode s.defines with
          | Except.ok db =>
              match mapEncode usize_strict_encode s.abi with
              | Except.ok ab =>
                  match vecU8_strict_encode [] with
                  | Except.ok sb => Except.ok (mb ++ cb ++ db ++ ab ++ sb)
                  | Except.error e => Except.error e
              | Except.error e => Except.error e
          | Except.error e => Except.error e
      | Except.error e => Except.error e
  | Except.error e => Except.error e

/-- src/rgb/schema/nodes.rs:93-109 — `TransitionSchema::strict_decode`:
decode metadata, closes, defines, abi, then the trailing byte vector; fail
with `UnsupportedDataStructure` when the trailing vector is non-empty. -/
def TransitionSchema.strict_decode (d : List Nat) :
    Except SEError (TransitionSchema × List Nat) :=
  match mapDecode occDec d with
  | Except.ok (metadata, d) =>
      match mapDecode occDec d with
      | Except.ok (closes, d) =>
          match mapDecode occDec d with
          | Except.ok (defines, d) =>
              match mapDecode abiValDec d with
              | Except.ok (abi, d) =>
                  match vecU8_strict_decode d with
                  | Except.ok (script, d) =>
                      if script.isEmpty then
                        Except.ok (⟨metadata, closes, defines, abi⟩, d)
                      else Except.error (SEError.UnsupportedDataStructure
                        "Scripting information is not yet supported")
                  | Except.error e => Except.error e
              | Except.error e => Except.error e
          | Except.error e => Except.error e
      | Except.error e => Except.error e
  | Except.error e => Except.error e

/-- A modelled `Occurences<u16>` is in range of the `u16` bounds the Rust
type enforces statically. -/
def ValidOcc (o : Occurences) : Prop :=
  o.min_occurs ≤ 0xFFFF ∧ o.max_occurs ≤ 0xFFFF

instance : DecidablePred ValidOcc := fun o => by
  unfold ValidOcc
  infer_instance

/-- Well-formedness of a metadata or seals map: the model of a
`BTreeMap<usize, Occurences<u16>>` value whose keys fit the 16-bit
serialisation — keys strictly ascending (the `BTreeMap` invariant), and
every key and bound in `u16` range. -/
def OccMapWF (m : List (Nat × Occurences)) : Prop :=
  m.length ≤ 0xFFFF ∧ List.Pairwise (fun a b => a.1 < b.1) m ∧
    ∀ p ∈ m, p.1 ≤ 0xFFFF ∧ ValidOcc p.2

/-- Well-formedness of an ABI map: keys strictly ascending, keys and
values in 16-bit range. -/
def AbiWF (m : Abi) : Prop :=
  m.length ≤ 0xFFFF ∧ List.Pairwise (fun a b => a.1 < b.1) m ∧
    ∀ p ∈ m, p.1 ≤ 0xFFFF ∧ p.2 ≤ 0xFFFF

instance (m : List (Nat × Occurences)) : Decidable (OccMapWF m) := by
  unfold OccMapWF
  infer_instance

instance (m : Abi) : Decidable (AbiWF m) := by
  unfold AbiWF
  infer_instance

/-- A well-formed `GenesisSchema`: all three maps well-formed. -/
def GenesisSchema.WellFormed (s : GenesisSchema) : Prop :=
  OccMapWF s.metadata ∧ OccMapWF s.defines ∧ AbiWF s.abi

/-- A well-formed `TransitionSchema`: all four maps well-formed. -/
def TransitionSchema.WellFormed (s : TransitionSchema) : Prop :=
  OccMapWF s.metadata ∧ OccMapWF s.closes ∧ OccMapWF s.defines ∧ AbiWF s.abi

instance (s : GenesisSchema) : Decidable s.WellFormed := by
  unfold GenesisSchema.WellFormed
  infer_instance

instance (s : TransitionSchema) : Decidable s.WellFormed := by
  unfold TransitionSchema.WellFormed
  infer_instance

theorem u16_roundtrip (n : Nat) (h : n ≤ 0xFFFF) (rest : List Nat) :
    u16_strict_decode (u16_strict_encode n ++ rest) = Except.ok (n, rest) := by
  have hn : n % 256 + 256 * (n / 256 % 256) = n := by omega
  simp [u16_strict_encode, u16_strict_decode, hn]

theorem usize_encode_ok (n : Nat) (h : n ≤ 0xFFFF) :
    usize_strict_encode n = Except.ok (u16_strict_encode n) := by
  simp [usize_strict_encode, h]

theorem vecU8_roundtrip (v : List Nat) (h : v.length ≤ 0xFFFF) (vb rest : List Nat)
    (henc : vecU8_strict_encode v = Except.ok vb) :
    vecU8_strict_decode (vb ++ rest) = Except.ok (v, rest) := by
  rw [vecU8_strict_encode, usize_encode_ok v.length h] at henc
  simp only [Except.ok.injEq] at henc
  subst henc
  rw [vecU8_strict_decode, List.append_assoc, u16_roundtrip v.length h]
  simp [List.take_left, List.drop_left]

theorem occ_roundtrip (o : Occurences) (h : ValidOcc o) (eb rest : List Nat)
    (henc : Occurences.strict_encode o = Except.ok eb) :
    Occurences.strict_decode (eb ++ rest) = Except.ok (o, rest) := by
  obtain ⟨h1, h2⟩ := h
  simp only [Occurences.strict_encode, Except.ok.injEq] at henc
  subst henc
  have e1 := u16_roundtrip o.min_occurs h1 (u16_strict_encode o.max_occurs ++ rest)
  have e2 := u16_roundtrip o.max_occurs h2 rest
  simp [Occurences.strict_decode, List.append_assoc, e1, e2]

theorem insertSorted_append {α : Type} (acc : List (Nat × α)) (k : Nat) (v : α)
    (h : ∀ p ∈ acc, p.1 < k) : insertSorted acc k v = acc ++ [(k, v)] := by
  induction acc with
  | nil => rfl
  | cons p rest ih =>
    obtain ⟨k', v'⟩ := p
    have hk : k' < k := h (k', v') (by simp)
    rw [insertSorted, if_neg (by omega), if_neg (by omega),
      ih (fun q hq => h q (by simp [hq]))]
    simp

theorem mapDecodeEntries_roundtrip {α : Type} (encV : α → Except SEError (List Nat))
    (decV : List Nat → Except SEError (α × List Nat)) (P : α → Prop)
    (hV : ∀ v, P v → ∀ bs rest, encV v = Except.ok bs →
      decV (bs ++ rest) = Except.ok (v, rest)) :
    ∀ (m acc : List (Nat × α)) (eb rest : List Nat),
      mapEncodeEntries encV m = Except.ok eb →
      List.Pairwise (fun a b => a.1 < b.1) m →
      (∀ p ∈ m, p.1 ≤ 0xFFFF ∧ P p.2) →
      (∀ p ∈ acc, ∀ q ∈ m, p.1 < q.1) →
      mapDecodeEntries decV m.length acc (eb ++ rest) = Except.ok (acc ++ m, rest) := by
  intro m
  induction m with
  | nil =>
    intro acc eb rest henc _ _ _
    simp only [mapEncodeEntries, Except.ok.injEq] at henc
    subst henc
    simp [mapDecodeEntries]
  | cons hd tl ih =>
    intro acc eb rest henc hpw hbound hacc
    obtain ⟨k, v⟩ := hd
    have hk_le : k ≤ 0xFFFF := (hbound (k, v) (by simp)).1
    have hPv : P v := (hbound (k, v) (by simp)).2
    rw [mapEncodeEntries, usize_encode_ok k hk_le] at henc
    cases hv : encV v with
    | error e => rw [hv] at henc; simp at henc
    | ok vb =>
      rw [hv] at henc
      cases htl : mapEncodeEntries encV tl with
      | error e => rw [htl] at henc; simp at henc
      | ok rb =>
        rw [htl] at henc
        simp only [Except.ok.injEq] at henc
        subst henc
        have h1 : usize_strict_decode ((u16_strict_encode k ++ vb ++ rb) ++ rest) =
            Except.ok (k, vb ++ (rb ++ rest)) := by
          have := u16_roundtrip k hk_le (vb ++ (rb ++ rest))
          simpa [usize_strict_decode, List.append_assoc] using this
        have h2 : decV (vb ++ (rb ++ rest)) = Except.ok (v, rb ++ rest) :=
          hV v hPv vb (rb ++ rest) hv
        have h3 : insertSorted acc k v = acc ++ [(k, v)] :=
          insertSorted_append acc k v (fun p hp => hacc p hp (k, v) (by simp))
        have hpw' := List.pairwise_cons.mp hpw
        have ihres := ih (acc ++ [(k, v)]) rb rest htl hpw'.2
          (fun p hp => hbound p (by simp [hp]))
          (by
            intro p hp q hq
            rcases List.mem_append.mp hp with hp' | hp'
            · exact hacc p hp' q (by simp [hq])
            · have : p = (k, v) := by simpa using hp'
              subst this
              exact hpw'.1 q hq)
        simp only [List.length_cons, mapDecodeEntries, h1, h2, h3]
        simpa [List.append_assoc] using ihres

theorem mapDecode_roundtrip {α : Type} (encV : α → Except SEError (List Nat))
    (decV : List Nat → Except SEError (α × List Nat)) (P : α → Prop)
    (hV : ∀ v, P v → ∀ bs rest, encV v = Except.ok bs →
      decV (bs ++ rest) = Except.ok (v, rest))
    (m : List (Nat × α)) (b rest : List Nat)
    (henc : mapEncode encV m = Except.ok b)
    (hlen : m.length ≤ 0xFFFF)
    (hpw : List.Pairwise (fun a b => a.1 < b.1) m)
    (hbound : ∀ p ∈ m, p.1 ≤ 0xFFFF ∧ P p.2) :
    mapDecode decV (b ++ rest) = Except.ok (m, rest) := by
  rw [mapEncode, usize_encode_ok _ hlen] at henc
  cases he : mapEncodeEntries encV m with
  | error e => rw [he] at henc; simp at henc
  | ok eb =>
    rw [he] at henc
    simp only [Except.ok.injEq] at henc
    subst henc
    have h1 := u16_roundtrip m.length hlen (eb ++ rest)
    have h2 := mapDecodeEntries_roundtrip encV decV P hV m [] eb rest he hpw hbound
      (by simp)
    simp only [mapDecode, List.append_assoc, h1]
    simpa using h2

theorem mapEncodeEntries_ok {α : Type} (encV : α → Except SEError (List Nat))
    (m : List (Nat × α))
    (hb : ∀ p ∈ m, p.1 ≤ 0xFFFF ∧ ∃ vb, encV p.2 = Except.ok vb) :
    ∃ eb, mapEncodeEntries encV m = Except.ok eb := by
  induction m with
  | nil => exact ⟨[], rfl⟩
  | cons hd tl ih =>
    obtain ⟨k, v⟩ := hd
    obtain ⟨vb, hvb⟩ := (hb (k, v) (by simp)).2
    obtain ⟨rb, hrb⟩ := ih (fun p hp => hb p (by simp [hp]))
    refine ⟨u16_strict_encode k ++ vb ++ rb, ?_⟩
    rw [mapEncodeEntries, usize_encode_ok k (hb (k, v) (by simp)).1, hvb, hrb]

theorem mapEncode_ok {α : Type} (encV : α → Except SEError (List Nat))
    (m : List (Nat × α)) (hlen : m.length ≤ 0xFFFF)
    (hb : ∀ p ∈ m, p.1 ≤ 0xFFFF ∧ ∃ vb, encV p.2 = Except.ok vb) :
    ∃ b, mapEncode encV m = Except.ok b := by
  obtain ⟨eb, heb⟩ := mapEncodeEntries_ok encV m hb
  refine ⟨u16_strict_encode m.length ++ eb, ?_⟩
  rw [mapEncode, usize_encode_ok _ hlen, heb]

theorem mapEncodeEntries_error_of_bigkey {α : Type}
    (encV : α → Except SEError (List Nat)) (m : List (Nat × α)) (k : Nat) (v : α)
    (hm : (k, v) ∈ m) (hk : 0xFFFF < k) :
    ∃ e, mapEncodeEntries encV m = Except.error e := by
  induction m with
  | nil => simp at hm
  | cons hd tl ih =>
    obtain ⟨k', v'⟩ := hd
    rcases List.mem_cons.mp hm with hhd | htl
    · rw [Prod.mk.injEq] at hhd
      obtain ⟨hk1, hv1⟩ := hhd
      subst hk1
      refine ⟨SEError.ExceedMaxItems k, ?_⟩
      rw [mapEncodeEntries, usize_strict_encode, if_neg (by omega)]
    · cases hke : usize_strict_encode k' with
      | error e => exact ⟨e, by rw [mapEncodeEntries, hke]⟩
      | ok kb =>
        cases hve : encV v' with
        | error e => exact ⟨e, by rw [mapEncodeEntries, hke, hve]⟩
        | ok vb =>
          obtain ⟨e, he⟩ := ih htl
          exact ⟨e, by rw [mapEncodeEntries, hke, hve, he]⟩

theorem mapEncode_error_of_bigkey {α : Type}
    (encV : α → Except SEError (List Nat)) (m : List (Nat × α)) (k : Nat) (v : α)
    (hm : (k, v) ∈ m) (hk : 0xFFFF < k) :
    ∃ e, mapEncode encV m = Except.error e := by
  obtain ⟨e, he⟩ := mapEncodeEntries_error_of_bigkey encV m k v hm hk
  cases hc : usize_strict_encode m.length with
  | error e' => exact ⟨e', by rw [mapEncode, hc]⟩
  | ok cb => exact ⟨e, by rw [mapEncode, hc, he]⟩

/-- The named-field part of `GenesisSchema::strict_encode`
(src/rgb/schema/nodes.rs:48-50): metadata, defines, abi, in order, without
the trailing placeholder vector. -/
def GenesisSchema.encode_fields (s : GenesisSchema) : Except SEError (List Nat) :=
  match mapEncode Occurences.strict_encode s.metadata with
  | Except.ok mb =>
      match mapEncode Occurences.strict_encode s.defines with
      | Except.ok db =>
          match mapEncode usize_strict_encode s.abi with
          | Except.ok ab => Except.ok (mb ++ db ++ ab)
          | Except.error e => Except.error e
      | Except.error e => Except.error e
  | Except.error e => Except.error e

/-- The named-field part of `TransitionSchema::strict_encode`
(src/rgb/schema/nodes.rs:81-84): metadata, closes, defines, abi, in order,
without the trailing placeholder vector. -/
def TransitionSchema.encode_fields (s : TransitionSchema) : Except SEError (List Nat) :=
  match mapEncode Occurences.strict_encode s.metadata with
  | Except.ok mb =>
      match mapEncode Occurences.strict_encode s.closes with
      | Except.ok cb =>
          match mapEncode Occurences.strict_encode s.defines with
          | Except.ok db =>
              match mapEncode usize_strict_encode s.abi with
              | Except.ok ab => Except.ok (mb ++ cb ++ db ++ ab)
              | Except.error e => Except.error e
          | Except.error e => Except.error e
      | Except.error e => Except.error e
  | Except.error e => Except.error e

theorem genesis_strict_encode_eq (s : GenesisSchema) :
    s.strict_encode = match s.encode_fields with
      | Except.ok fb => Except.ok (fb ++ [0, 0])
      | Except.error e => Except.error e := by
  rw [GenesisSchema.strict_encode, GenesisSchema.encode_fields]
  cases mapEncode Occurences.strict_encode s.metadata <;>
    cases mapEncode Occurences.strict_encode s.defines <;>
      cases mapEncode usize_strict_encode s.abi <;>
        simp [vecU8_strict_encode, usize_strict_encode, u16_strict_encode]

theorem transition_strict_encode_eq (s : TransitionSchema) :
    s.strict_encode = match s.encode_fields with
      | Except.ok fb => Except.ok (fb ++ [0, 0])
      | Except.error e => Except.error e := by
  rw [TransitionSchema.strict_encode, TransitionSchema.encode_fields]
  cases mapEncode Occurences.strict_encode s.metadata <;>
    cases mapEncode Occurences.strict_encode s.closes <;>
      cases mapEncode Occurences.strict_encode s.defines <;>
        cases mapEncode usize_strict_encode s.abi <;>
          simp [vecU8_strict_encode, usize_strict_encode, u16_strict_encode]

theorem occDec_of_encode (v : Occurences) (hv : ValidOcc v) (bs rest : List Nat)
    (he : Occurences.strict_encode v = Except.ok bs) :
    occDec (bs ++ rest) = Except.ok (v, rest) :=
  occ_roundtrip v hv bs rest he

theorem abiValDec_of_encode (v : Nat) (hv : v ≤ 0xFFFF) (bs rest : List Nat)
    (he : usize_strict_encode v = Except.ok bs) :
    abiValDec (bs ++ rest) = Except.ok (v, rest) := by
  rw [usize_encode_ok v hv] at he
  simp only [Except.ok.injEq] at he
  subst he
  exact u16_roundtrip v hv rest

theorem genesis_decode_fields_append (s : GenesisSchema) (hWF : s.WellFormed)
    (fb tail : List Nat) (hfb : s.encode_fields = Except.ok fb) :
    GenesisSchema.strict_decode (fb ++ tail) =
      match vecU8_strict_decode tail with
      | Except.ok (script, d) =>
          if script.isEmpty then Except.ok (s, d)
          else Except.error (SEError.UnsupportedDataStructure
            "Scripting information is not yet supported")
      | Except.error e => Except.error e := by
  obtain ⟨hm, hd, ha⟩ := hWF
  rw [GenesisSchema.encode_fields] at hfb
  cases h1 : mapEncode Occurences.strict_encode s.metadata with
  | error e => rw [h1] at hfb; simp at hfb
  | ok mb =>
    rw [h1] at hfb
    cases h2 : mapEncode Occurences.strict_encode s.defines with
    | error e => rw [h2] at hfb; simp at hfb
    | ok db =>
      rw [h2] at hfb
      cases h3 : mapEncode usize_strict_encode s.abi with
      | error e => rw [h3] at hfb; simp at hfb
      | ok ab =>
        rw [h3] at hfb
        simp only [Except.ok.injEq] at hfb
        subst hfb
        have e1 := mapDecode_roundtrip _ occDec ValidOcc occDec_of_encode
          s.metadata mb (db ++ (ab ++ tail)) h1 hm.1 hm.2.1 hm.2.2
        have e2 := mapDecode_roundtrip _ occDec ValidOcc occDec_of_encode
          s.defines db (ab ++ tail) h2 hd.1 hd.2.1 hd.2.2
        have e3 := mapDecode_roundtrip _ abiValDec (fun v => v ≤ 0xFFFF)
          abiValDec_of_encode s.abi ab tail h3 ha.1 ha.2.1 ha.2.2
        simp only [GenesisSchema.strict_decode, List.append_assoc, e1, e2, e3]

theorem transition_decode_fields_append (s : TransitionSchema) (hWF : s.WellFormed)
    (fb tail : List Nat) (hfb : s.encode_fields = Except.ok fb) :
    TransitionSchema.strict_decode (fb ++ tail) =
      match vecU8_strict_decode tail with
      | Except.ok (script, d) =>
          if script.isEmpty then Except.ok (s, d)
          else Except.error (SEError.UnsupportedDataStructure
            "Scripting information is not yet supported")
      | Except.error e => Except.error e := by
  obtain ⟨hm, hc, hd, ha⟩ := hWF
  rw [TransitionSchema.encode_fields] at hfb
  cases h1 : mapEncode Occurences.strict_encode s.metadata with
  | error e => rw [h1] at hfb; simp at hfb
  | ok mb =>
    rw [h1] at hfb
    cases h2 : mapEncode Occurences.strict_encode s.closes with
    | error e => rw [h2] at hfb; simp at hfb
    | ok cb =>
      rw [h2] at hfb
      cases h3 : mapEncode Occurences.strict_encode s.defines with
      | error e => rw [h3] at hfb; simp at hfb
      | ok db =>
        rw [h3] at hfb
        cases h4 : mapEncode usize_strict_encode s.abi with
        | error e => rw [h4] at hfb; simp at hfb
        | ok ab =>
          rw [h4] at hfb
          simp only [Except.ok.injEq] at hfb
          subst hfb
          have e1 := mapDecode_roundtrip _ occDec ValidOcc occDec_of_encode
            s.metadata mb (cb ++ (db ++ (ab ++ tail))) h1 hm.1 hm.2.1 hm.2.2
          have e2 := mapDecode_roundtrip _ occDec ValidOcc occDec_of_encode
            s.closes cb (db ++ (ab ++ tail)) h2 hc.1 hc.2.1 hc.2.2
          have e3 := mapDecode_roundtrip _ occDec ValidOcc occDec_of_encode
            s.defines db (ab ++ tail) h3 hd.1 hd.2.1 hd.2.2
          have e4 := mapDecode_roundtrip _ abiValDec (fun v => v ≤ 0xFFFF)
            abiValDec_of_encode s.abi ab tail h4 ha.1 ha.2.1 ha.2.2
          simp only [TransitionSchema.strict_decode, List.append_assoc, e1, e2, e3, e4]

theorem genesis_encode_fields_ok (s : GenesisSchema) (hWF : s.WellFormed) :
    ∃ fb, s.encode_fields = Except.ok fb := by
  obtain ⟨hm, hd, ha⟩ := hWF
  obtain ⟨mb, h1⟩ := mapEncode_ok Occurences.strict_encode s.metadata hm.1
    (fun p hp => ⟨(hm.2.2 p hp).1, _, rfl⟩)
  obtain ⟨db, h2⟩ := mapEncode_ok Occurences.strict_encode s.defines hd.1
    (fun p hp => ⟨(hd.2.2 p hp).1, _, rfl⟩)
  obtain ⟨ab, h3⟩ := mapEncode_ok usize_strict_encode s.abi ha.1
    (fun p hp => ⟨(ha.2.2 p hp).1, _, usize_encode_ok p.2 (ha.2.2 p hp).2⟩)
  exact ⟨mb ++ db ++ ab, by rw [GenesisSchema.encode_fields, h1, h2, h3]⟩

theorem transition_encode_fields_ok (s : TransitionSchema) (hWF : s.WellFormed) :
    ∃ fb, s.encode_fields = Except.ok fb := by
  obtain ⟨hm, hc, hd, ha⟩ := hWF
  obtain ⟨mb, h1⟩ := mapEncode_ok Occurences.strict_encode s.metadata hm.1
    (fun p hp => ⟨(hm.2.2 p hp).1, _, rfl⟩)
  obtain ⟨cb, h2⟩ := mapEncode_ok Occurences.strict_encode s.closes hc.1
    (fun p hp => ⟨(hc.2.2 p hp).1, _, rfl⟩)
  obtain ⟨db, h3⟩ := mapEncode_ok Occurences.strict_encode s.defines hd.1
    (fun p hp => ⟨(hd.2.2 p hp).1, _, rfl⟩)
  obtain ⟨ab, h4⟩ := mapEncode_ok usize_strict_encode s.abi ha.1
    (fun p hp => ⟨(ha.2.2 p hp).1, _, usize_encode_ok p.2 (ha.2.2 p hp).2⟩)
  exact ⟨mb ++ cb ++ db ++ ab, by rw [TransitionSchema.encode_fields, h1, h2, h3, h4]⟩

/-- C1: for both `GenesisSchema` and `TransitionSchema`, `strict_decode`,
after reading the named fields (metadata/closes/defines maps and ABI),
reads a trailing byte vector; when that vector is non-empty it returns the
`UnsupportedDataStructure` error noting that scripting is not yet
supported, and it returns the decoded schema only when the trailing vector
is empty. -/
theorem strict_decode_trailing_script_gate (g : GenesisSchema) (t : TransitionSchema)
    (bs gfb tfb vb : List Nat)
    (hg : g.WellFormed) (ht : t.WellFormed)
    (hgf : g.encode_fields = Except.ok gfb)
    (htf : t.encode_fields = Except.ok tfb)
    (hvb : vecU8_strict_encode bs = Except.ok vb) :
    (bs ≠ [] →
      GenesisSchema.strict_decode (gfb ++ vb) = Except.error
        (SEError.UnsupportedDataStructure "Scripting information is not yet supported") ∧
      TransitionSchema.strict_decode (tfb ++ vb) = Except.error
        (SEError.UnsupportedDataStructure "Scripting information is not yet supported")) ∧
    (bs = [] →
      GenesisSchema.strict_decode (gfb ++ vb) = Except.ok (g, []) ∧
      TransitionSchema.strict_decode (tfb ++ vb) = Except.ok (t, [])) := by
  have hlen : bs.length ≤ 0xFFFF := by
    rw [vecU8_strict_encode, usize_strict_encode] at hvb
    by_contra hc
    rw [if_neg hc] at hvb
    simp at hvb
  have hdec : vecU8_strict_decode vb = Except.ok (bs, []) := by
    have := vecU8_roundtrip bs hlen vb [] hvb
    simpa using this
  have hgcase := genesis_decode_fields_append g hg gfb vb hgf
  have htcase := transition_decode_fields_append t ht tfb vb htf
  rw [hdec] at hgcase htcase
  constructor
  · intro hne
    have hbe : bs.isEmpty = false := by simpa [List.isEmpty_iff] using hne
    simp [hbe] at hgcase htcase
    exact ⟨hgcase, htcase⟩
  · intro heq
    subst heq
    simp at hgcase htcase
    exact ⟨hgcase, htcase⟩

/-- Witness for C1 at the empty schemas with one trailing placeholder
byte: decoding fails with the unsupported-data-structure error, while the
canonical empty trailing vector decodes back to the schema. -/
theorem strict_decode_trailing_script_gate_witness :
    (GenesisSchema.strict_decode ([0, 0, 0, 0, 0, 0] ++ [1, 0, 7]) = Except.error
      (SEError.UnsupportedDataStructure "Scripting information is not yet supported") ∧
     TransitionSchema.strict_decode ([0, 0, 0, 0, 0, 0, 0, 0] ++ [1, 0, 7]) = Except.error
      (SEError.UnsupportedDataStructure "Scripting information is not yet supported")) :=
  (strict_decode_trailing_script_gate ⟨[], [], []⟩ ⟨[], [], [], []⟩ [7]
    [0, 0, 0, 0, 0, 0] [0, 0, 0, 0, 0, 0, 0, 0] [1, 0, 7]
    (by decide) (by decide) rfl rfl rfl).1 (by decide)

/-- C2: for every well-formed `GenesisSchema` and `TransitionSchema`
(including ones with empty maps), decoding the bytes produced by
`strict_encode` returns the original schema, consuming the whole
stream. -/
theorem strict_encode_strict_decode_roundtrip (g : GenesisSchema) (t : TransitionSchema)
    (hg : g.WellFormed) (ht : t.WellFormed) :
    Except.bind g.strict_encode GenesisSchema.strict_decode = Except.ok (g, []) ∧
    Except.bind t.strict_encode TransitionSchema.strict_decode = Except.ok (t, []) := by
  constructor
  · obtain ⟨fb, hfb⟩ := genesis_encode_fields_ok g hg
    have henc := genesis_strict_encode_eq g
    rw [hfb] at henc
    have hdec := genesis_decode_fields_append g hg fb [0, 0] hfb
    rw [henc]
    have hvd : vecU8_strict_decode [0, 0] = Except.ok ([], []) := rfl
    rw [hvd] at hdec
    simpa [Except.bind] using hdec
  · obtain ⟨fb, hfb⟩ := transition_encode_fields_ok t ht
    have henc := transition_strict_encode_eq t
    rw [hfb] at henc
    have hdec := transition_decode_fields_append t ht fb [0, 0] hfb
    rw [henc]
    have hvd : vecU8_strict_decode [0, 0] = Except.ok ([], []) := rfl
    rw [hvd] at hdec
    simpa [Except.bind] using hdec

/-- Witness for C2 at concrete schemas with non-empty and empty maps. -/
theorem strict_encode_strict_decode_roundtrip_witness :
    Except.bind (GenesisSchema.strict_encode ⟨[(1, ⟨0, 3⟩), (2, ⟨1, 1⟩)], [(7, ⟨0, 1⟩)], [(0, 42)]⟩)
        GenesisSchema.strict_decode =
      Except.ok (⟨[(1, ⟨0, 3⟩), (2, ⟨1, 1⟩)], [(7, ⟨0, 1⟩)], [(0, 42)]⟩, []) ∧
    Except.bind (TransitionSchema.strict_encode ⟨[(1, ⟨1, 2⟩)], [], [(4, ⟨1, 1⟩)], [(5, 6)]⟩)
        TransitionSchema.strict_decode =
      Except.ok (⟨[(1, ⟨1, 2⟩)], [], [(4, ⟨1, 1⟩)], [(5, 6)]⟩, []) :=
  strict_encode_strict_decode_roundtrip
    ⟨[(1, ⟨0, 3⟩), (2, ⟨1, 1⟩)], [(7, ⟨0, 1⟩)], [(0, 42)]⟩
    ⟨[(1, ⟨1, 2⟩)], [], [(4, ⟨1, 1⟩)], [(5, 6)]⟩ (by decide) (by decide)

/-- C10: seal-type keys are `usize` but serialised as 16-bit values; a
schema containing a key `≥ 2^16` in a seals map cannot be encoded — the
encoding fails with an error. -/
theorem sealtype_key_requires_u16 :
    (∀ (s : GenesisSchema) (k : Nat) (o : Occurences), (k, o) ∈ s.defines →
      0xFFFF < k → ∃ e, s.strict_encode = Except.error e) ∧
    (∀ (s : TransitionSchema) (k : Nat) (o : Occurences),
      ((k, o) ∈ s.closes ∨ (k, o) ∈ s.defines) →
      0xFFFF < k → ∃ e, s.strict_encode = Except.error e) := by
  constructor
  · intro s k o hk hbig
    obtain ⟨e, he⟩ := mapEncode_error_of_bigkey Occurences.strict_encode s.defines k o hk hbig
    cases h1 : mapEncode Occurences.strict_encode s.metadata with
    | error e1 => exact ⟨e1, by simp [GenesisSchema.strict_encode, h1]⟩
    | ok mb => exact ⟨e, by simp [GenesisSchema.strict_encode, h1, he]⟩
  · intro s k o hk hbig
    cases h1 : mapEncode Occurences.strict_encode s.metadata with
    | error e1 => exact ⟨e1, by simp [TransitionSchema.strict_encode, h1]⟩
    | ok mb =>
      rcases hk with hkc | hkd
      · obtain ⟨e, he⟩ :=
          mapEncode_error_of_bigkey Occurences.strict_encode s.closes k o hkc hbig
        exact ⟨e, by simp [TransitionSchema.strict_encode, h1, he]⟩
      · cases h2 : mapEncode Occurences.strict_encode s.closes with
        | error e2 => exact ⟨e2, by simp [TransitionSchema.strict_encode, h1, h2]⟩
        | ok cb =>
          obtain ⟨e, he⟩ :=
            mapEncode_error_of_bigkey Occurences.strict_encode s.defines k o hkd hbig
          exact ⟨e, by simp [TransitionSchema.strict_encode, h1, h2, he]⟩

/-- Witness for C10: a transition schema with the seal-type key `2^16` in
its defines map fails to encode. -/
theorem sealtype_key_requires_u16_witness :
    ∃ e, TransitionSchema.strict_encode ⟨[], [], [(65536, ⟨0, 0⟩)], []⟩ =
      Except.error e :=
  sealtype_key_requires_u16.2 ⟨[], [], [(65536, ⟨0, 0⟩)], []⟩ 65536 ⟨0, 0⟩
    (Or.inr (by decide)) (by decide)

/-- Modelled from the spec: an opaque secp256k1 curve point (the external
`secp256k1::PublicKey`), identified by a natural number. -/
abbrev SecpPublicKey : Type := Nat

/-- Modelled from the spec: a message committed to is an opaque byte slice
(the external `AsSlice` bound). -/
abbrev Message : Type := List Nat

/-- Modelled from the spec: an opaque digest of a byte string, used to
model the external hash primitives. -/
def byteDigest (bs : List Nat) : Nat :=
  bs.foldl (fun a b => a * 257 + b + 1) (bs.length + 7)

/-- Modelled from the spec: the 33-byte compressed encoding of a public
key (an opaque blob with a defined byte encoding). -/
def secp_serialize_compressed (k : SecpPublicKey) : List Nat :=
  2 :: (List.range 32).map (fun i => k / 256 ^ i % 256)

/-- Modelled from the spec: the 65-byte uncompressed encoding of a public
key (an opaque blob with a defined byte encoding). -/
def secp_serialize_uncompressed (k : SecpPublicKey) : List Nat :=
  4 :: (List.range 64).map (fun i => k / 256 ^ i % 256)

/-- Modelled from the spec: `bitcoin::PublicKey` — a secp256k1 key
together with its stored compression flag. -/
structure BitcoinPublicKey where
  compressed : Bool
  key : SecpPublicKey
deriving DecidableEq

/-- Modelled from the spec: the byte encoding of a `bitcoin::PublicKey`
follows its stored compression flag. -/
def BitcoinPublicKey.to_bytes (pk : BitcoinPublicKey) : List Nat :=
  if pk.compressed then secp_serialize_compressed pk.key
  else secp_serialize_uncompressed pk.key

/-- Modelled from the spec: the external 20-byte hash160 digest used for
witness-pubkey-hash scripts. -/
def hash160 (bs : List Nat) : List Nat :=
  (List.range 20).map (fun i => byteDigest bs / 256 ^ i % 256)

/-- Modelled from the spec: the external 32-byte digest used for
witness-script-hash scripts. -/
def sha256_digest32 (bs : List Nat) : List Nat :=
  (List.range 32).map (fun i => byteDigest bs / 256 ^ i % 256)

/-- Modelled from the spec: `wpubkey_hash` — the 20-byte witness pubkey
hash of the key bytes chosen by the stored compression flag. -/
def BitcoinPublicKey.wpubkey_hash (pk : BitcoinPublicKey) : List Nat :=
  hash160 pk.to_bytes

/-- Modelled from the spec: `wscript_hash` — the 32-byte witness script
hash of raw script bytes. -/
def wscript_hash (bs : List Nat) : List Nat :=
  sha256_digest32 bs

/-- `crate::bp::scripts::PubkeyScript` (external, not under src/):
modelled from the spec as a newtype around raw script bytes. -/
structure PubkeyScript where
  into_inner : List Nat
deriving DecidableEq

/-- `crate::bp::scripts::LockScript` (external, not under src/): modelled
from the spec as a newtype around raw script bytes. -/
structure LockScript where
  into_inner : List Nat
deriving DecidableEq

/-- `LockScript::from_inner`: wrap raw script bytes. -/
def LockScript.from_inner (bs : List Nat) : LockScript := ⟨bs⟩

/-- Modelled from the spec: minimal data push in a Bitcoin script — a
length byte below `OP_PUSHDATA1` (0x4c), else a pushdata opcode. -/
def pushData (bs : List Nat) : List Nat :=
  if bs.length < 0x4c then bs.length :: bs
  else if bs.length < 0x100 then 0x4c :: bs.length :: bs
  else 0x4d :: bs.length % 256 :: bs.length / 256 % 256 :: bs

/-- Modelled from the spec: `Builder::gen_p2pk` — pay-to-pubkey script:
push the key bytes, then `OP_CHECKSIG` (0xac). -/
def Builder.gen_p2pk (pk : BitcoinPublicKey) : List Nat :=
  pushData pk.to_bytes ++ [0xac]

/-- Modelled from the spec: `Builder::gen_v0_p2wpkh` — version-0
witness-pubkey-hash script: `OP_0` then the 20-byte key hash. -/
def Builder.gen_v0_p2wpkh (keyhash : List Nat) : List Nat :=
  0x00 :: pushData keyhash

/-- Modelled from the spec: `Builder::gen_v0_p2wsh` — version-0
witness-script-hash script: `OP_0` then the 32-byte script hash. -/
def Builder.gen_v0_p2wsh (scripthash : List Nat) : List Nat :=
  0x00 :: pushData scripthash

/-- Modelled from the spec: `Builder::gen_op_return` — data-carrier
script: `OP_RETURN` (0x6a) then the pushed payload. -/
def Builder.gen_op_return (data : List Nat) : List Nat :=
  0x6a :: pushData data

/-- src/bp/dbc/scriptpubkey.rs:33-42 — `Error`: wraps the originating
primitive's error with its kind preserved (payloads opaque to this
core). -/
inductive DbcError where
  | Pubkey
  | Secp256k1
  | LockScriptParse
deriving DecidableEq

/-- Modelled from the spec: the public-key commitment primitive of the
external `super::pubkey` module — the commitment keeps the original key
and the key tweaked by the message. -/
structure PubkeyCommitment where
  original : SecpPublicKey
  tweaked : SecpPublicKey
deriving DecidableEq

/-- Modelled from the spec: the deterministic key tweak of the public-key
commitment primitive. -/
def pubkey_tweak (k : SecpPublicKey) (msg : Message) : SecpPublicKey :=
  k + 2 * byteDigest msg + 1

/-- Modelled from the spec: `PubkeyCommitment::commit_to`. -/
def PubkeyCommitment.commit_to (k : SecpPublicKey) (msg : Message) :
    Except DbcError PubkeyCommitment :=
  Except.ok ⟨k, pubkey_tweak k msg⟩

/-- Modelled from the spec: the pubkey primitive reconstructs its original
container (the key). -/
def PubkeyCommitment.get_original_container (c : PubkeyCommitment) : SecpPublicKey :=
  c.original

/-- Modelled from the spec: the pubkey primitive's own reveal/verify —
recommit to the original and compare; an error yields `false`. -/
def PubkeyCommitment.reveal_verify (c : PubkeyCommitment) (msg : Message) : Bool :=
  match PubkeyCommitment.commit_to c.original msg with
  | Except.ok c2 => decide (c2 = c)
  | Except.error _ => false

/-- Modelled from the spec: the lock-script commitment primitive of the
external `super` module — keeps the original script and a commitment
value derived from script and message. -/
structure LockscriptCommitment where
  original : LockScript
  tweaked : Nat
deriving DecidableEq

/-- Modelled from the spec: the deterministic commitment value of the
lock-script commitment primitive. -/
def lockscript_tweak (s : LockScript) (msg : Message) : Nat :=
  byteDigest (s.into_inner ++ msg)

/-- Modelled from the spec: `LockscriptCommitment::commit_to`. -/
def LockscriptCommitment.commit_to (s : LockScript) (msg : Message) :
    Except DbcError LockscriptCommitment :=
  Except.ok ⟨s, lockscript_tweak s msg⟩

/-- Modelled from the spec: the lock-script primitive reconstructs its
original container (the script). -/
def LockscriptCommitment.get_original_container (c : LockscriptCommitment) : LockScript :=
  c.original

/-- Modelled from the spec: the lock-script primitive's own
reveal/verify. -/
def LockscriptCommitment.reveal_verify (c : LockscriptCommitment) (msg : Message) : Bool :=
  match LockscriptCommitment.commit_to c.original msg with
  | Except.ok c2 => decide (c2 = c)
  | Except.error _ => false

/-- Modelled from the spec: `TaprootContainer` of the external `super`
module — internal key plus script tree info. -/
structure TaprootContainer where
  script_root : Nat
  intermediate_key : SecpPublicKey
deriving DecidableEq

/-- Modelled from the spec: the taproot commitment primitive — keeps the
original container and the tweaked output key. -/
structure TaprootCommitment where
  original : TaprootContainer
  tweaked : SecpPublicKey
deriving DecidableEq

/-- Modelled from the spec: the deterministic taproot output-key tweak. -/
def taproot_tweak (c : TaprootContainer) (msg : Message) : SecpPublicKey :=
  c.intermediate_key + 3 * byteDigest msg + c.script_root + 1

/-- Modelled from the spec: `TaprootCommitment::commit_to`. -/
def TaprootCommitment.commit_to (c : TaprootContainer) (msg : Message) :
    Except DbcError TaprootCommitment :=
  Except.ok ⟨c, taproot_tweak c msg⟩

/-- Modelled from the spec: the taproot primitive reconstructs its
original container. -/
def TaprootCommitment.get_original_container (c : TaprootCommitment) : TaprootContainer :=
  c.original

/-- Modelled from the spec: the taproot primitive's own reveal/verify. -/
def TaprootCommitment.reveal_verify (c : TaprootCommitment) (msg : Message) : Bool :=
  match TaprootCommitment.commit_to c.original msg with
  | Except.ok c2 => decide (c2 = c)
  | Except.error _ => false

/-- src/bp/dbc/scriptpubkey.rs:65-72 — `ScriptPubkeyContainer`. -/
inductive ScriptPubkeyContainer where
  | PublicKey (pubkey : SecpPublicKey)
  | PubkeyHash (pubkey : SecpPublicKey)
  | ScriptHash (script : LockScript)
  | TapRoot (container : TaprootContainer)
  | OpReturn (pubkey : SecpPublicKey)
  | OtherScript (script : PubkeyScript)
deriving DecidableEq

/-- src/bp/dbc/scriptpubkey.rs:78-82 — `ScriptPubkeyCommitment`. -/
inductive ScriptPubkeyCommitment where
  | PublicKey (cmt : PubkeyCommitment)
  | LockScript (cmt : LockscriptCommitment)
  | TapRoot (cmt : TaprootCommitment)
deriving DecidableEq

/-- The explicit failure signal of an `unimplemented!()` arm in the Rust
script synthesiser. -/
inductive SynthesisError where
  | unimplemented
deriving DecidableEq

/-- src/bp/dbc/scriptpubkey.rs:85-107 — `From<ScriptPubkeyContainer> for
PubkeyScript`: the script synthesiser.  The Rust `TapRoot` arm (and the
catch-all arm of the non-exhaustive enum) panics with `unimplemented!()`;
the model returns an explicit error for it. -/
def PubkeyScript.from_container :
    ScriptPubkeyContainer → Except SynthesisError PubkeyScript
  | ScriptPubkeyContainer.OtherScript script =>
      Except.ok ⟨script.into_inner⟩
  | ScriptPubkeyContainer.PublicKey pubkey =>
      Except.ok ⟨Builder.gen_p2pk ⟨false, pubkey⟩⟩
  | ScriptPubkeyContainer.PubkeyHash pubkey =>
      Except.ok ⟨Builder.gen_v0_p2wpkh (BitcoinPublicKey.wpubkey_hash ⟨false, pubkey⟩)⟩
  | ScriptPubkeyContainer.ScriptHash script =>
      Except.ok ⟨Builder.gen_v0_p2wsh (wscript_hash script.into_inner)⟩
  | ScriptPubkeyContainer.OpReturn data =>
      Except.ok ⟨Builder.gen_op_return (BitcoinPublicKey.wpubkey_hash ⟨false, data⟩)⟩
  | ScriptPubkeyContainer.TapRoot _ =>
      Except.error SynthesisError.unimplemented

/-- src/bp/dbc/scriptpubkey.rs:127-145 — `get_original_container`:
reconstruct the abstract container from the commitment variant via the
matching primitive; a `PublicKey` commitment is always reconstructed as
`PubkeyHash`, a `LockScript` commitment always as `ScriptHash`. -/
def ScriptPubkeyCommitment.get_original_container :
    ScriptPubkeyCommitment → ScriptPubkeyContainer
  | ScriptPubkeyCommitment.PublicKey cmt =>
      ScriptPubkeyContainer.PubkeyHash cmt.get_original_container
  | ScriptPubkeyCommitment.LockScript cmt =>
      ScriptPubkeyContainer.ScriptHash cmt.get_original_container
  | ScriptPubkeyCommitment.TapRoot cmt =>
      ScriptPubkeyContainer.TapRoot cmt.get_original_container

/-- src/bp/dbc/scriptpubkey.rs:147-177 — `commit_to`: dispatch on the
container variant to the matching primitive and wrap the result;
`OtherScript` reinterprets its bytes as a `LockScript` first. -/
def ScriptPubkeyCommitment.commit_to (container : ScriptPubkeyContainer)
    (msg : Message) : Except DbcError ScriptPubkeyCommitment :=
  match container with
  | ScriptPubkeyContainer.PublicKey pubkey =>
      match PubkeyCommitment.commit_to pubkey msg with
      | Except.ok cmt => Except.ok (ScriptPubkeyCommitment.PublicKey cmt)
      | Except.error e => Except.error e
  | ScriptPubkeyContainer.PubkeyHash pubkey =>
      match PubkeyCommitment.commit_to pubkey msg with
      | Except.ok cmt => Except.ok (ScriptPubkeyCommitment.PublicKey cmt)
      | Except.error e => Except.error e
  | ScriptPubkeyContainer.ScriptHash script =>
      match LockscriptCommitment.commit_to script msg with
      | Except.ok cmt => Except.ok (ScriptPubkeyCommitment.LockScript cmt)
      | Except.error e => Except.error e
  | ScriptPubkeyContainer.TapRoot c =>
      match TaprootCommitment.commit_to c msg with
      | Except.ok cmt => Except.ok (ScriptPubkeyCommitment.TapRoot cmt)
      | Except.error e => Except.error e
  | ScriptPubkeyContainer.OpReturn pubkey =>
      match PubkeyCommitment.commit_to pubkey msg with
      | Except.ok cmt => Except.ok (ScriptPubkeyCommitment.PublicKey cmt)
      | Except.error e => Except.error e
  | ScriptPubkeyContainer.OtherScript script =>
      match LockscriptCommitment.commit_to (LockScript.from_inner script.into_inner) msg with
      | Except.ok cmt => Except.ok (ScriptPubkeyCommitment.LockScript cmt)
      | Except.error e => Except.error e

/-- Modelled from the spec: the provided `reveal_verify` of the generic
embed-commit protocol (external `crate::primitives::commit_verify`):
recommit to the reconstructed original container and compare with the
held commitment; any error yields `false`, never a failure. -/
def ScriptPubkeyCommitment.embedded_reveal_verify (self : ScriptPubkeyCommitment)
    (msg : Message) : Bool :=
  match ScriptPubkeyCommitment.commit_to self.get_original_container msg with
  | Except.ok c => decide (c = self)
  | Except.error _ => false

/-- src/bp/dbc/scriptpubkey.rs:110-118 — `CommitmentVerify::reveal_verify`
delegates to the embedded-commitment reveal/verify of
`ScriptPubkeyCommitment` itself. -/
def ScriptPubkeyCommitment.reveal_verify (self : ScriptPubkeyCommitment)
    (msg : Message) : Bool :=
  self.embedded_reveal_verify msg

/-- C3: for every key and message, `commit_to` on `PublicKey(k)`,
`PubkeyHash(k)` and `OpReturn(k)` delegates to the same public-key
commitment primitive at `k` and the message, each wrapping the result as
`ScriptPubkeyCommitment.PublicKey`, so all three results are equal. -/
theorem commit_to_pubkey_variants_agree (k : SecpPublicKey) (msg : Message) :
    ScriptPubkeyCommitment.commit_to (ScriptPubkeyContainer.PublicKey k) msg =
      (match PubkeyCommitment.commit_to k msg with
       | Except.ok cmt => Except.ok (ScriptPubkeyCommitment.PublicKey cmt)
       | Except.error e => Except.error e) ∧
    ScriptPubkeyCommitment.commit_to (ScriptPubkeyContainer.PubkeyHash k) msg =
      ScriptPubkeyCommitment.commit_to (ScriptPubkeyContainer.PublicKey k) msg ∧
    ScriptPubkeyCommitment.commit_to (ScriptPubkeyContainer.OpReturn k) msg =
      ScriptPubkeyCommitment.commit_to (ScriptPubkeyContainer.PublicKey k) msg :=
  ⟨rfl, rfl, rfl⟩

/-- C4: reconstruction from a commitment built from either `PubkeyHash(k)`
or `OpReturn(k)` yields `PubkeyHash(k)` in both cases — the documented
lossy, `PubkeyHash`-biased reconstruction; `OpReturn` is never
reconstructed. -/
theorem get_original_container_pubkeyhash_biased (k : SecpPublicKey) (msg : Message)
    (c1 c2 : ScriptPubkeyCommitment)
    (h1 : ScriptPubkeyCommitment.commit_to (ScriptPubkeyContainer.PubkeyHash k) msg =
      Except.ok c1)
    (h2 : ScriptPubkeyCommitment.commit_to (ScriptPubkeyContainer.OpReturn k) msg =
      Except.ok c2) :
    c1.get_original_container = ScriptPubkeyContainer.PubkeyHash k ∧
    c2.get_original_container = ScriptPubkeyContainer.PubkeyHash k := by
  simp only [ScriptPubkeyCommitment.commit_to, PubkeyCommitment.commit_to,
    Except.ok.injEq] at h1 h2
  subst h1
  subst h2
  constructor <;> rfl

/-- Witness for C4 at a concrete key and message. -/
theorem get_original_container_pubkeyhash_biased_witness :
    (ScriptPubkeyCommitment.PublicKey ⟨5, pubkey_tweak 5 [1, 2]⟩).get_original_container =
      ScriptPubkeyContainer.PubkeyHash 5 ∧
    (ScriptPubkeyCommitment.PublicKey ⟨5, pubkey_tweak 5 [1, 2]⟩).get_original_container =
      ScriptPubkeyContainer.PubkeyHash 5 :=
  get_original_container_pubkeyhash_biased 5 [1, 2]
    (ScriptPubkeyCommitment.PublicKey ⟨5, pubkey_tweak 5 [1, 2]⟩)
    (ScriptPubkeyCommitment.PublicKey ⟨5, pubkey_tweak 5 [1, 2]⟩) rfl rfl

/-- C5: the script synthesised from `OpReturn(k)` is a data-carrier
(`OP_RETURN`) script whose payload is exactly the 20-byte
witness-pubkey-hash of the uncompressed encoding of `k`, not the raw key
bytes. -/
theorem op_return_payload_is_wpubkey_hash (k : SecpPublicKey) :
    PubkeyScript.from_container (ScriptPubkeyContainer.OpReturn k) =
      Except.ok ⟨Builder.gen_op_return (hash160 (secp_serialize_uncompressed k))⟩ ∧
    (hash160 (secp_serialize_uncompressed k)).length = 20 ∧
    hash160 (secp_serialize_uncompressed k) ≠ secp_serialize_uncompressed k := by
  refine ⟨rfl, by simp [hash160], ?_⟩
  intro h
  have hlen := congrArg List.length h
  simp [hash160, secp_serialize_uncompressed] at hlen

/-- C6: script synthesis for `PublicKey(k)`, `PubkeyHash(k)` and
`OpReturn(k)` forces the uncompressed encoding of `k`: each produced
script equals the one generated directly from the explicit uncompressed
encoding of `k`. -/
theorem synthesis_forces_uncompressed_encoding (k : SecpPublicKey) :
    PubkeyScript.from_container (ScriptPubkeyContainer.PublicKey k) =
      Except.ok ⟨pushData (secp_serialize_uncompressed k) ++ [0xac]⟩ ∧
    PubkeyScript.from_container (ScriptPubkeyContainer.PubkeyHash k) =
      Except.ok ⟨0x00 :: pushData (hash160 (secp_serialize_uncompressed k))⟩ ∧
    PubkeyScript.from_container (ScriptPubkeyContainer.OpReturn k) =
      Except.ok ⟨0x6a :: pushData (hash160 (secp_serialize_uncompressed k))⟩ :=
  ⟨rfl, rfl, rfl⟩

/-- C7: script synthesis on a `TapRoot` container raises the explicit
unimplemented/unsupported signal and never returns any script (empty,
default or otherwise). -/
theorem taproot_synthesis_unimplemented (tc : TaprootContainer) :
    PubkeyScript.from_container (ScriptPubkeyContainer.TapRoot tc) =
      Except.error SynthesisError.unimplemented ∧
    ∀ s : PubkeyScript, PubkeyScript.from_container (ScriptPubkeyContainer.TapRoot tc) ≠
      Except.ok s := by
  refine ⟨rfl, ?_⟩
  intro s h
  simp [PubkeyScript.from_container] at h

/-- C8: `reveal_verify` on a `ScriptPubkeyCommitment` delegates to the
reveal/verify of the primitive matching the commitment's variant tag; it
is a total Boolean function (pure, never raises), and a commitment that is
internally inconsistent with its own original data verifies as `false`
rather than failing. -/
theorem reveal_verify_delegates_by_variant (msg : Message) :
    (∀ pc : PubkeyCommitment,
      (ScriptPubkeyCommitment.PublicKey pc).reveal_verify msg =
        pc.reveal_verify msg) ∧
    (∀ lc : LockscriptCommitment,
      (ScriptPubkeyCommitment.LockScript lc).reveal_verify msg =
        lc.reveal_verify msg) ∧
    (∀ tc : TaprootCommitment,
      (ScriptPubkeyCommitment.TapRoot tc).reveal_verify msg =
        tc.reveal_verify msg) ∧
    (∀ pc : PubkeyCommitment, pubkey_tweak pc.original msg ≠ pc.tweaked →
      (ScriptPubkeyCommitment.PublicKey pc).reveal_verify msg = false) := by
  refine ⟨?_, ?_, ?_, ?_⟩
  · intro pc
    simp [ScriptPubkeyCommitment.reveal_verify,
      ScriptPubkeyCommitment.embedded_reveal_verify,
      ScriptPubkeyCommitment.get_original_container,
      ScriptPubkeyCommitment.commit_to, PubkeyCommitment.reveal_verify,
      PubkeyCommitment.commit_to, PubkeyCommitment.get_original_container]
  · intro lc
    simp [ScriptPubkeyCommitment.reveal_verify,
      ScriptPubkeyCommitment.embedded_reveal_verify,
      ScriptPubkeyCommitment.get_original_container,
      ScriptPubkeyCommitment.commit_to, LockscriptCommitment.reveal_verify,
      LockscriptCommitment.commit_to, LockscriptCommitment.get_original_container,
      LockScript.from_inner]
  · intro tc
    simp [ScriptPubkeyCommitment.reveal_verify,
      ScriptPubkeyCommitment.embedded_reveal_verify,
      ScriptPubkeyCommitment.get_original_container,
      ScriptPubkeyCommitment.commit_to, TaprootCommitment.reveal_verify,
      TaprootCommitment.commit_to, TaprootCommitment.get_original_container]
  · intro pc hne
    simp [ScriptPubkeyCommitment.reveal_verify,
      ScriptPubkeyCommitment.embedded_reveal_verify,
      ScriptPubkeyCommitment.get_original_container,
      ScriptPubkeyCommitment.commit_to, PubkeyCommitment.commit_to,
      PubkeyCommitment.get_original_container]
    intro h
    exact hne (congrArg PubkeyCommitment.tweaked h)

/-- Witness for C8 at a concrete inconsistent commitment: the stored tweak
`1` differs from the recomputed tweak of key `0` under message `[]`, and
verification returns `false` instead of failing. -/
theorem reveal_verify_delegates_by_variant_witness :
    pubkey_tweak (PubkeyCommitment.mk 0 1).original [] ≠ (PubkeyCommitment.mk 0 1).tweaked ∧
    (ScriptPubkeyCommitment.PublicKey ⟨0, 1⟩).reveal_verify [] = false :=
  ⟨by decide, (reveal_verify_delegates_by_variant []).2.2.2 ⟨0, 1⟩ (by decide)⟩

/-- C9: a commitment built from `OtherScript(s)` reconstructs as
`ScriptHash` carrying the same script bytes, never as `OtherScript` — the
distinction is irreversibly lost through commit and reconstruction. -/
theorem other_script_reconstructs_as_script_hash (s : PubkeyScript) (msg : Message)
    (c : ScriptPubkeyCommitment)
    (h : ScriptPubkeyCommitment.commit_to (ScriptPubkeyContainer.OtherScript s) msg =
      Except.ok c) :
    c.get_original_container =
      ScriptPubkeyContainer.ScriptHash (LockScript.from_inner s.into_inner) ∧
    ∀ s2 : PubkeyScript, c.get_original_container ≠
      ScriptPubkeyContainer.OtherScript s2 := by
  simp only [ScriptPubkeyCommitment.commit_to, LockscriptCommitment.commit_to,
    Except.ok.injEq] at h
  subst h
  refine ⟨rfl, ?_⟩
  intro s2 hcontra
  simp [ScriptPubkeyCommitment.get_original_container,
    LockscriptCommitment.get_original_container] at hcontra

/-- Witness for C9 at a concrete script and message. -/
theorem other_script_reconstructs_as_script_hash_witness :
    (ScriptPubkeyCommitment.LockScript
        ⟨⟨[1, 2]⟩, lockscript_tweak ⟨[1, 2]⟩ [3]⟩).get_original_container =
      ScriptPubkeyContainer.ScriptHash (LockScript.from_inner [1, 2]) ∧
    ∀ s2 : PubkeyScript,
      (ScriptPubkeyCommitment.LockScript
          ⟨⟨[1, 2]⟩, lockscript_tweak ⟨[1, 2]⟩ [3]⟩).get_original_container ≠
        ScriptPubkeyContainer.OtherScript s2 :=
  other_script_reconstructs_as_script_hash ⟨[1, 2]⟩ [3]
    (ScriptPubkeyCommitment.LockScript ⟨⟨[1, 2]⟩, lockscript_tweak ⟨[1, 2]⟩ [3]⟩) rfl
